import Mathlib

/-!
# kata-vfio-tools: the VFIO OCI hook (`vfio-hook/vfio-hook.go`)

A shallow embedding of the hook's device discovery and driver rebinding, and
theorems about it.

Conventions of the embedding.

* Go strings are Lean `String`s (the separators the code looks for, `/`, `:`
  and the newline, are one-byte characters).
* A Go `error` is an `Option String` carrying the text of `err.Error()`;
  `none` is `nil`.
* The host file system is an arbitrary state type `σ` with an arbitrary
  interface `Host σ`: listing, reading, `stat` and `readlink` observe the
  state, `WriteFile` may change it and may fail.  Nothing is assumed about
  what a host answers.
* Every `ioutil.WriteFile` call is recorded, in order, with its path and
  payload, whether it succeeds or not.  `doRebind` additionally records each
  call of `rebindOne` with its arguments.
* `main` takes the command line; `flag.Parse` is embedded for the two boolean
  flags the hook defines, with its `ExitOnError` handling.
* Logging (logrus) is not part of the embedding; the debug level is disabled
  in the source, so `log.Debugf` prints nothing.
-/

set_option autoImplicit false

/-! ## Library functions used by the hook -/

namespace strings

/-- Go `strings.TrimSuffix(s, suffix)`: `s` without the trailing `suffix`
when `s` ends with it, `s` itself otherwise. -/
def TrimSuffix (s suffix : String) : String :=
  if s.data.drop (s.data.length - suffix.data.length) = suffix.data then
    String.mk (s.data.take (s.data.length - suffix.data.length))
  else s

/-- The character loop of `Replace` for a one-character `old`: replaces the
first `n` occurrences of `old` by `new`. -/
def replaceChars (old : Char) (new : List Char) : List Char → Nat → List Char
  | [], _ => []
  | cs, 0 => cs
  | c :: cs, n + 1 =>
    if c = old then new ++ replaceChars old new cs n
    else c :: replaceChars old new cs (n + 1)

/-- Go `strings.Replace(s, old, new, n)` for a one-character `old` and a
count `n ≥ 0` (the hook calls it with `":"`, `" "` and `1`). -/
def Replace (s : String) (old : Char) (new : String) (n : Nat) : String :=
  String.mk (replaceChars old new.data s.data n)

/-- Go `strings.Join(elems, sep)` on character lists. -/
def joinChars (sep : List Char) : List (List Char) → List Char
  | [] => []
  | [e] => e
  | e :: rest => e ++ sep ++ joinChars sep rest

end strings

namespace filepath

/-- The elements of a path: the pieces between the `/` separators. -/
def splitSlash : List Char → List (List Char)
  | [] => [[]]
  | c :: cs =>
    if c = '/' then [] :: splitSlash cs
    else
      match splitSlash cs with
      | [] => [[c]]
      | e :: rest => (c :: e) :: rest

/-- An element that `Clean` keeps as it is: neither empty, nor `.`, nor `..`. -/
def plainElem (e : List Char) : Prop := e ≠ [] ∧ e ≠ ['.'] ∧ e ≠ ['.', '.']

instance (e : List Char) : Decidable (plainElem e) := by
  unfold plainElem; infer_instance

/-- One element of `Clean`'s loop.  `out` holds the elements written so far,
the last one first.  An empty element and `.` are dropped; `..` removes the
last element written when there is one to remove, is dropped at the root, and
is kept in a relative path that has nothing left to remove; any other element
is written. -/
def cleanStep (rooted : Bool) (out : List (List Char)) (e : List Char) :
    List (List Char) :=
  if e = [] ∨ e = ['.'] then out
  else if e = ['.', '.'] then
    match out with
    | [] => if rooted then [] else [e]
    | top :: rest => if top = ['.', '.'] then e :: top :: rest else rest
  else e :: out

/-- Go `filepath.Clean` on Unix: the shortest path lexically equivalent to
`path`. -/
def Clean (path : String) : String :=
  if path.data = [] then "."
  else
    let rooted : Bool := decide (path.data.head? = some '/')
    let out := (splitSlash path.data).foldl (cleanStep rooted) []
    let body := strings.joinChars ['/'] out.reverse
    if rooted then String.mk ('/' :: body)
    else if body = [] then "."
    else String.mk body

/-- The loop of `Join`: leading empty elements are skipped, the rest is
joined with `/` and cleaned; with nothing left the result is empty. -/
def joinFrom : List String → String
  | [] => ""
  | e :: rest =>
    if e = "" then joinFrom rest
    else Clean (String.mk (strings.joinChars ['/'] ((e :: rest).map String.data)))

/-- Go `filepath.Join(elem...)` on Unix. -/
def Join (elem : List String) : String := joinFrom elem

end filepath

namespace strconv

/-- Go `strconv.ParseBool`: the boolean a flag value stands for, if any. -/
def ParseBool (str : String) : Option Bool :=
  if str ∈ ["1", "t", "T", "TRUE", "true", "True"] then some true
  else if str ∈ ["0", "f", "F", "FALSE", "false", "False"] then some false
  else none

end strconv

namespace flag

/-- How `flag.Parse` ends on the hook's flag set, which defines the boolean
flags `-s` and `-version`: with the values of the two flags, or with the
error that the default `ExitOnError` handling turns into the end of the
process (`ErrHelp` for `-h` and `-help`, a failure otherwise). -/
inductive Outcome where
  | parsed (start printVersion : Bool)
  | help
  | failed
  deriving DecidableEq, Repr

/-- The name of a flag and its value, if it has one: the name ends at the
first `=` that is not its first character. -/
def splitValue : List Char → List Char × Option (List Char)
  | [] => ([], none)
  | c :: rest =>
    if '=' ∈ rest then
      (c :: rest.takeWhile (fun x => decide (x ≠ '=')),
        some ((rest.dropWhile (fun x => decide (x ≠ '='))).drop 1))
    else (c :: rest, none)

/-- The loop of `FlagSet.Parse` over `parseOne`, from the current values of
the two flags.  An argument shorter than two characters or not starting with
`-`, and the argument `--`, end the flags.  A boolean flag without a value is
set to true. -/
def parseArgs : List String → Bool → Bool → Outcome
  | [], start, printVersion => .parsed start printVersion
  | arg :: rest, start, printVersion =>
    match arg.data with
    | '-' :: c :: cs =>
      if c = '-' ∧ cs = [] then .parsed start printVersion
      else
        match (if c = '-' then cs else c :: cs) with
        | [] => .failed
        | n0 :: ns =>
          if n0 = '-' ∨ n0 = '=' then .failed
          else
            match splitValue (n0 :: ns) with
            | (name, value) =>
              if name = "s".data then
                match value with
                | none => parseArgs rest true printVersion
                | some v =>
                  match strconv.ParseBool (String.mk v) with
                  | some b => parseArgs rest b printVersion
                  | none => .failed
              else if name = "version".data then
                match value with
                | none => parseArgs rest start true
                | some v =>
                  match strconv.ParseBool (String.mk v) with
                  | some b => parseArgs rest start b
                  | none => .failed
              else if name = "help".data ∨ name = "h".data then .help
              else .failed
    | _ => .parsed start printVersion

/-- Go `flag.Parse()` after lines 50-51: `-s` defaults to true and `-version`
to false; `args` is the command line without the program name. -/
def Parse (args : List String) : Outcome := parseArgs args true false

end flag

/-! ## The host and what the hook does to it -/

namespace VfioHook

/-- The hook's view of the host file system, over a state `σ`.  Errors carry
the text of the Go error. -/
structure Host (σ : Type) where
  /-- Go `ioutil.ReadDir`: the names of the entries of a directory. -/
  readDir : σ → String → Except String (List String)
  /-- Go `ioutil.ReadFile`: the contents of a file. -/
  readFile : σ → String → Except String String
  /-- Go `os.Stat`: `true` when it returns no error. -/
  stat : σ → String → Bool
  /-- Go `os.Readlink`: the destination of a symbolic link. -/
  readlink : σ → String → Except String String
  /-- Go `ioutil.WriteFile`: its error, if any, and the state it leaves. -/
  writeFile : σ → String → String → Except String Unit × σ

/-- One call of `ioutil.WriteFile`: the path and the payload. -/
structure Write where
  path : String
  data : String
  deriving DecidableEq, Repr

/-- What `doRebind` is observed to do: call `rebindOne` with a bus address and
a vendor:device pair, and (inside that call) write control files. -/
inductive Event where
  | invoke (bdf vd : String)
  | write (w : Write)
  deriving DecidableEq, Repr

/-- The map built by `createDeviceMap`, Go `map[string]string`, from
"vendor:device" to a bus address: a list of entries with distinct keys, in
some iteration order.  The empty list is also the `nil` map. -/
abbrev DeviceMap := List (String × String)

namespace DeviceMap

/-- Go `v, found := m[k]`. -/
def find (m : DeviceMap) (k : String) : Option String :=
  match m with
  | [] => none
  | (k1, v) :: rest => if k1 = k then some v else find rest k

/-- The map without the entry of `k`. -/
def erase (m : DeviceMap) (k : String) : DeviceMap :=
  match m with
  | [] => []
  | (k1, v) :: rest => if k1 = k then erase rest k else (k1, v) :: erase rest k

/-- Go `m[k] = v`: the entry of `k` is replaced, or added. -/
def insert (m : DeviceMap) (k v : String) : DeviceMap :=
  (k, v) :: erase m k

/-- The keys of the map. -/
def keys (m : DeviceMap) : List String := m.map Prod.fst

end DeviceMap

/-- The vendor:device pairs the hook rebinds (line 26). -/
def pciSupportedVendorDeviceList : List String :=
  ["0x8086:0x1521", "0x8086:0x1520", "0x8086:0x158b", "0x15b3:0x1015",
   "0x15b3:0x1017", "0x10ec:0x522a"]

def pciDeviceFile : String := "/sys/bus/pci/devices"

def vfioDeviceFile : String := "/sys/bus/pci/drivers/vfio-pci"

/-- Lines 209-217 of `rebindOne`: the write of the pair, with its first colon
replaced by a blank, to vfio-pci's `new_id`.  `ws` are the writes already made
by the call. -/
def rebindOne.bindNew {σ : Type} (H : Host σ) (vd : String) (s : σ) (ws : List Write) :
    Option String × σ × List Write :=
  let newidPath := filepath.Join [vfioDeviceFile, "new_id"]
  let newid := strings.Replace vd ':' " " 1
  match H.writeFile s newidPath newid with
  | (.error err, s1) =>
    (some ("Could not bind vfio driver: " ++ err), s1, ws ++ [⟨newidPath, newid⟩])
  | (.ok _, s1) => (none, s1, ws ++ [⟨newidPath, newid⟩])

/-- The source's `rebindOne(bdf, vd)`: the error returned, the state left and
the writes made, in order. -/
def rebindOne {σ : Type} (H : Host σ) (bdf vd : String) (s : σ) :
    Option String × σ × List Write :=
  let driverPath := filepath.Join [pciDeviceFile, bdf, "driver"]
  if H.stat s driverPath then
    match H.readlink s driverPath with
    | .error err => (some ("Could not read driver: " ++ err), s, [])
    | .ok driver =>
      if driver = "vfio-pci" then (none, s, [])
      else
        let unbindPath := filepath.Join [pciDeviceFile, bdf, "driver/unbind"]
        match H.writeFile s unbindPath bdf with
        | (.error err, s1) =>
          (some ("Could not unbind driver: " ++ err), s1, [⟨unbindPath, bdf⟩])
        | (.ok _, s1) => rebindOne.bindNew H vd s1 [⟨unbindPath, bdf⟩]
  else rebindOne.bindNew H vd s []

/-- The loop of `doRebind` (lines 175-183) over the pairs `vds`: a pair found
in the map is rebound, and the loop goes on to the next pair whether that
returned an error or not. -/
def doRebind.loop {σ : Type} (H : Host σ) (deviceMap : DeviceMap) :
    List String → σ → σ × List Event
  | [], s => (s, [])
  | vd :: rest, s =>
    match deviceMap.find vd with
    | some bdf =>
      match rebindOne H bdf vd s with
      | (_, s1, ws) =>
        let r := doRebind.loop H deviceMap rest s1
        (r.1, Event.invoke bdf vd :: ws.map Event.write ++ r.2)
    | none => doRebind.loop H deviceMap rest s

/-- The source's `doRebind(deviceMap)`.  The first loop (lines 171-173) walks
the map in its iteration order and only logs at debug level. -/
def doRebind {σ : Type} (H : Host σ) (deviceMap : DeviceMap) (s : σ) :
    Option String × σ × List Event :=
  let s0 := deviceMap.foldl (fun acc _ => acc) s
  let r := doRebind.loop H deviceMap pciSupportedVendorDeviceList s0
  (none, r.1, r.2)

/-- The source's `createDeviceMap()`: `nil` when the registry cannot be
listed; otherwise every entry whose `vendor` and `device` files are both read
is stored, under its "vendor:device" key, in listing order. -/
def createDeviceMap {σ : Type} (H : Host σ) (s : σ) : DeviceMap :=
  match H.readDir s pciDeviceFile with
  | .error _ => []
  | .ok bdfList =>
    bdfList.foldl (fun deviceMap bdf =>
      let vendorPath := filepath.Join [pciDeviceFile, bdf, "vendor"]
      let devicePath := filepath.Join [pciDeviceFile, bdf, "device"]
      match H.readFile s vendorPath with
      | .error _ => deviceMap
      | .ok vendor =>
        match H.readFile s devicePath with
        | .error _ => deviceMap
        | .ok device =>
          let key := strings.TrimSuffix vendor "\n" ++ ":" ++ strings.TrimSuffix device "\n"
          deviceMap.insert key bdf) []

/-- The source's `bindVFIO()`. -/
def bindVFIO {σ : Type} (H : Host σ) (s : σ) : Option String × σ × List Event :=
  let devMap := createDeviceMap H s
  if devMap.length ≠ 0 then
    match doRebind H devMap s with
    | (_, s1, evs) => (none, s1, evs)
  else (none, s, [])

/-- The fields of the OCI `spec.State` that the hook uses. -/
structure State where
  ID : String
  Pid : Int
  Bundle : String

/-- The source's `startVfioOciHook()`.  `decode` is the JSON decoding of the
state on standard input, `stdin` the payload. -/
def startVfioOciHook {σ : Type} (H : Host σ) (decode : String → Except String State)
    (stdin : String) (s : σ) : Option String × σ × List Event :=
  match decode stdin with
  | .error err => (some err, s, [])
  | .ok st =>
    let configJsonPath := filepath.Join ["/run/libcontainer", st.ID, "config.json"]
    match H.readFile s configJsonPath with
    | .error err => (some err, s, [])
    | .ok _ =>
      match bindVFIO H s with
      | (some err, s1, evs) => (some err, s1, evs)
      | (none, s1, evs) => (none, s1, evs)

/-- How `main` ends: the exit status of the process, what it printed on
standard output, the state of the host and the events. -/
structure Exit (σ : Type) where
  status : Nat
  stdout : List String
  host : σ
  events : List Event

/-- The source's `main()` on the command line `args`.  `flag.Parse` ends the
process with status 2 when it fails, and with `helpStatus` on `-h` or `-help`
(0 since Go 1.15, 2 before).  Returning from `main` ends the process with
status 0, like `os.Exit(0)`. -/
def main {σ : Type} (H : Host σ) (decode : String → Except String State)
    (helpStatus : Nat) (args : List String) (stdin : String) (s : σ) : Exit σ :=
  match flag.Parse args with
  | .failed => ⟨2, [], s, []⟩
  | .help => ⟨helpStatus, [], s, []⟩
  | .parsed start printVersion =>
    if printVersion then ⟨0, ["0.1"], s, []⟩
    else if start then
      match startVfioOciHook H decode stdin s with
      | (some _, s1, evs) => ⟨0, [], s1, evs⟩
      | (none, s1, evs) => ⟨0, [], s1, evs⟩
    else ⟨0, [], s, []⟩

/-! ## Names used in the statements -/

/-- The local `driverPath` of `rebindOne` (line 190). -/
def driverPath (bdf : String) : String := filepath.Join [pciDeviceFile, bdf, "driver"]

/-- The local `unbindPath` of `rebindOne` (line 201). -/
def unbindPath (bdf : String) : String := filepath.Join [pciDeviceFile, bdf, "driver/unbind"]

/-- The local `newidPath` of `rebindOne` (line 210). -/
def newidPath : String := filepath.Join [vfioDeviceFile, "new_id"]

/-- The local `vendorPath` of `createDeviceMap` (line 144). -/
def vendorPath (bdf : String) : String := filepath.Join [pciDeviceFile, bdf, "vendor"]

/-- The local `devicePath` of `createDeviceMap` (line 145). -/
def devicePath (bdf : String) : String := filepath.Join [pciDeviceFile, bdf, "device"]

/-- A name that a directory listing can return: not empty, not `.` or `..`,
and without a `/`.  Bus addresses reach the hook as such names. -/
def isEntryName (name : String) : Prop :=
  filepath.plainElem name.data ∧ '/' ∉ name.data

instance (name : String) : Decidable (isEntryName name) := by
  unfold isEntryName; infer_instance

/-- The key an entry of the registry yields: "vendor:device" from its two
identifier files, each without its trailing newline, when both can be read. -/
def entryKey {σ : Type} (H : Host σ) (s : σ) (bdf : String) : Option String :=
  match H.readFile s (vendorPath bdf), H.readFile s (devicePath bdf) with
  | .ok vendor, .ok device =>
    some (strings.TrimSuffix vendor "\n" ++ ":" ++ strings.TrimSuffix device "\n")
  | _, _ => none

/-- The calls of `rebindOne` among the events, as (bus address, pair). -/
def invocations : List Event → List (String × String)
  | [] => []
  | Event.invoke bdf vd :: rest => (bdf, vd) :: invocations rest
  | Event.write _ :: rest => invocations rest

/-- The control-file writes among the events. -/
def writes : List Event → List Write
  | [] => []
  | Event.invoke _ _ :: rest => writes rest
  | Event.write w :: rest => w :: writes rest

/-- The calls of `rebindOne` that the allowlist and a map determine: the
pairs of the allowlist that are keys of the map, in allowlist order, each with
its bus address. -/
def expectedCalls (m : DeviceMap) : List (String × String) :=
  pciSupportedVendorDeviceList.filterMap (fun vd => (m.find vd).map (fun bdf => (bdf, vd)))

/-! ## Concrete hosts -/

/-- A device of a sample host: its bus address and the contents of its
`vendor` and `device` files. -/
structure Device where
  bdf : String
  vendor : String
  device : String

/-- A sample host with the given devices.  Its state is the list of (bus
address, driver) bindings.  A device has a `driver` link exactly when it is
bound, and the link reads as the driver's name.  When `writable`, writing to a
device's `driver/unbind` removes its binding and writing "vendor device" to
vfio-pci's `new_id` binds the unbound devices with these identifiers to
vfio-pci; otherwise every write fails. -/
def sampleHost (devices : List Device) (writable : Bool) : Host (List (String × String)) where
  readDir := fun _ p =>
    if p = pciDeviceFile then .ok (devices.map Device.bdf)
    else .error "no such file or directory"
  readFile := fun _ p =>
    match devices.find? (fun dv => decide (p = vendorPath dv.bdf)) with
    | some dv => .ok dv.vendor
    | none =>
      match devices.find? (fun dv => decide (p = devicePath dv.bdf)) with
      | some dv => .ok dv.device
      | none => .error "no such file or directory"
  stat := fun st p => st.any (fun b => decide (p = driverPath b.1))
  readlink := fun st p =>
    match st.find? (fun b => decide (p = driverPath b.1)) with
    | some b => .ok b.2
    | none => .error "no such file or directory"
  writeFile := fun st p data =>
    if writable then
      if p = newidPath then
        (.ok (), st ++ ((devices.filter (fun dv =>
          decide (strings.TrimSuffix dv.vendor "\n" ++ " " ++ strings.TrimSuffix dv.device "\n"
            = data) && !(st.any (fun b => decide (b.1 = dv.bdf))))).map
          (fun dv => (dv.bdf, "vfio-pci"))))
      else (.ok (), st.filter (fun b => decide (p ≠ unbindPath b.1)))
    else (.error "permission denied", st)

/-- The host of the end-to-end scenario: one Intel I350 port. -/
def igbHost : Host (List (String × String)) :=
  sampleHost [⟨"0000:01:00.0", "0x8086\n", "0x1521\n"⟩] true

/-- Two ports of the same model on a host whose control files reject writes. -/
def readOnlyHost : Host (List (String × String)) :=
  sampleHost [⟨"0000:01:00.0", "0x8086\n", "0x1521\n"⟩,
    ⟨"0000:01:00.1", "0x8086\n", "0x1521\n"⟩,
    ⟨"0000:02:00.0", "0x15b3\n", "0x1015\n"⟩] false

/-- A host with an allowlisted port and a device that is not on the allowlist. -/
def mixedHost : Host (List (String × String)) :=
  sampleHost [⟨"0000:01:00.0", "0x8086\n", "0x1521\n"⟩,
    ⟨"0000:03:00.0", "0x1234\n", "0x5678\n"⟩] true

/-- A host as sysfs shows it: like `sampleHost`, except that the `driver`
link of a bound device reads as the path of the driver's directory relative to
the device, `../../../bus/pci/drivers/<driver>`. -/
def sysfsHost (devices : List Device) (writable : Bool) : Host (List (String × String)) where
  readDir := (sampleHost devices writable).readDir
  readFile := (sampleHost devices writable).readFile
  stat := (sampleHost devices writable).stat
  readlink := fun st p =>
    match (sampleHost devices writable).readlink st p with
    | .ok driver => .ok ("../../../bus/pci/drivers/" ++ driver)
    | .error err => .error err
  writeFile := (sampleHost devices writable).writeFile

/-- An Intel I350 port on the root bus of a host as sysfs shows it. -/
def rootBusHost : Host (List (String × String)) :=
  sysfsHost [⟨"0000:00:19.0", "0x8086\n", "0x1521\n"⟩] true

/-- A map in which an allowlisted key and another key have the same bus
address. -/
def aliasMap : DeviceMap :=
  [("0x1234:0x5678", "0000:01:00.0"), ("0x8086:0x1521", "0000:01:00.0")]

/-- A host on which every `driver` path exists and no link can be read. -/
def brokenLinkHost : Host Unit where
  readDir := fun _ _ => .error "no such file or directory"
  readFile := fun _ _ => .error "no such file or directory"
  stat := fun _ _ => true
  readlink := fun _ _ => .error "input/output error"
  writeFile := fun _ _ _ => (.ok (), ())

end VfioHook

/-! ## Lemmas on the library functions -/

namespace strings

theorem replaceChars_zero (old : Char) (new cs : List Char) :
    replaceChars old new cs 0 = cs := by
  cases cs <;> simp [replaceChars]

theorem replaceChars_first (old : Char) (new a b : List Char) (h : old ∉ a) :
    replaceChars old new (a ++ old :: b) 1 = a ++ new ++ b := by
  induction a with
  | nil => simp [replaceChars, replaceChars_zero]
  | cons c cs ih =>
    have hc : c ≠ old := fun e => h (by simp [e])
    have hcs : old ∉ cs := fun e => h (by simp [e])
    simp [replaceChars, hc, ih hcs]

/-- The pair "vendor:device", with no colon in the vendor, becomes
"vendor device". -/
theorem Replace_colon (vendor device : String) (h : ':' ∉ vendor.data) :
    Replace (vendor ++ ":" ++ device) ':' " " 1 = vendor ++ " " ++ device := by
  apply String.ext
  simp only [Replace, String.data_append]
  simpa using replaceChars_first ':' [' '] vendor.data device.data h

theorem TrimSuffix_newline (v : String) : TrimSuffix (v ++ "\n") "\n" = v := by
  have h1 : ("\n" : String).data = ['\n'] := rfl
  simp [TrimSuffix, String.data_append, h1]

theorem joinChars_two_last (sep : List Char) (xs : List (List Char)) (a b : List Char) :
    ∃ pre, joinChars sep (xs ++ [a, b]) = pre ++ (a ++ sep ++ b) := by
  induction xs with
  | nil => exact ⟨[], by simp [joinChars]⟩
  | cons x rest ih =>
    obtain ⟨pre, hpre⟩ := ih
    refine ⟨x ++ sep ++ pre, ?_⟩
    cases rest with
    | nil => simp_all [joinChars]
    | cons y ys =>
      have : joinChars sep (x :: (y :: ys ++ [a, b])) =
          x ++ sep ++ joinChars sep (y :: ys ++ [a, b]) := by
        simp [joinChars]
      simp_all

end strings

namespace filepath

theorem splitSlash_ne_nil (cs : List Char) : splitSlash cs ≠ [] := by
  induction cs with
  | nil => simp [splitSlash]
  | cons c cs ih =>
    unfold splitSlash
    split
    · simp
    · split <;> simp

theorem splitSlash_append (a r : List Char) :
    splitSlash (a ++ '/' :: r) = splitSlash a ++ splitSlash r := by
  induction a with
  | nil => simp [splitSlash]
  | cons c cs ih =>
    by_cases hc : c = '/'
    · simp [splitSlash, hc, ih]
    · have hne := splitSlash_ne_nil cs
      cases hcs : splitSlash cs with
      | nil => exact absurd hcs hne
      | cons e rest => simp [splitSlash, hc, ih, hcs]

theorem splitSlash_plain (a : List Char) (h : '/' ∉ a) : splitSlash a = [a] := by
  induction a with
  | nil => simp [splitSlash]
  | cons c cs ih =>
    have hc : c ≠ '/' := fun e => h (by simp [e])
    have hcs : '/' ∉ cs := fun e => h (by simp [e])
    simp [splitSlash, hc, ih hcs]

end filepath

namespace strings

theorem joinChars_cons_cons (sep e e2 : List Char) (rest : List (List Char)) :
    joinChars sep (e :: e2 :: rest) = e ++ sep ++ joinChars sep (e2 :: rest) := by
  simp [joinChars]
end strings

namespace filepath
open strings

theorem joinChars_splitSlash (x : List Char) : joinChars ['/'] (splitSlash x) = x := by
  induction x with
  | nil => simp [splitSlash, joinChars]
  | cons c cs ih =>
    have hne := splitSlash_ne_nil cs
    cases hcs : splitSlash cs with
    | nil => exact absurd hcs hne
    | cons e rest =>
      rw [hcs] at ih
      by_cases hc : c = '/'
      · simp [splitSlash, hc, hcs, joinChars_cons_cons, ih]
      · cases rest with
        | nil => simp_all [splitSlash, joinChars]
        | cons e2 r2 =>
          simp only [splitSlash, hc, hcs, if_false, joinChars_cons_cons] at ih ⊢
          simp [← ih]

theorem foldl_cleanStep_plain (rooted : Bool) (es out : List (List Char))
    (h : ∀ e ∈ es, plainElem e) :
    es.foldl (cleanStep rooted) out = es.reverse ++ out := by
  induction es generalizing out with
  | nil => simp
  | cons e rest ih =>
    obtain ⟨h1, h2, h3⟩ := h e (by simp)
    have hstep : cleanStep rooted out e = e :: out := by simp [cleanStep, h1, h2, h3]
    simp [List.foldl, hstep, ih (e :: out) (fun x hx => h x (by simp [hx]))]

/-- `Clean` leaves an absolute path of plain elements as it is. -/
theorem Clean_plain (x : List Char) (es : List (List Char)) (hx : splitSlash x = [] :: es)
    (hes : ∀ e ∈ es, plainElem e) (hne : es ≠ []) : Clean (String.mk x) = String.mk x := by
  have hj := joinChars_splitSlash x
  rw [hx] at hj
  obtain ⟨e1, rest, rfl⟩ := List.exists_cons_of_ne_nil hne
  rw [joinChars_cons_cons] at hj
  have hhead : x.head? = some '/' := by rw [← hj]; simp
  have hxne : x ≠ [] := by rw [← hj]; simp
  have hstep : cleanStep true [] [] = [] := by simp [cleanStep]
  have hfold : ([] :: e1 :: rest).foldl (cleanStep true) [] = (e1 :: rest).reverse := by
    rw [List.foldl_cons, hstep, foldl_cleanStep_plain true _ _ hes, List.append_nil]
  simp only [Clean, hxne, if_false, hhead, decide_True, if_true, hx, hfold,
    List.reverse_reverse]
  exact congrArg String.mk (by simpa using hj)

end filepath

namespace VfioHook
open filepath strings

theorem Join_entry (a name t : String) (as ts : List (List Char))
    (ha : splitSlash a.data = [] :: as) (has : ∀ e ∈ as, plainElem e)
    (ht : splitSlash t.data = ts) (hts : ∀ e ∈ ts, plainElem e)
    (hn : isEntryName name) (hane : a ≠ "") :
    Join [a, name, t] = a ++ "/" ++ name ++ "/" ++ t := by
  have hsplit : splitSlash (a.data ++ '/' :: (name.data ++ '/' :: t.data)) =
      [] :: (as ++ name.data :: ts) := by
    rw [splitSlash_append, splitSlash_append, splitSlash_plain _ hn.2, ha, ht]
    simp
  have hclean := Clean_plain _ _ hsplit
    (by
      intro e he
      simp only [List.mem_append, List.mem_cons] at he
      rcases he with h | h | h
      · exact has e h
      · exact h ▸ hn.1
      · exact hts e h)
    (by simp)
  simp only [Join, joinFrom, hane, if_false, List.map, joinChars]
  rw [show a.data ++ ['/'] ++ (name.data ++ ['/'] ++ t.data) =
    a.data ++ '/' :: (name.data ++ '/' :: t.data) by simp, hclean]
  apply String.ext
  have h1 : ("/" : String).data = ['/'] := rfl
  simp [String.data_append, h1]

theorem unbindPath_entry (bdf : String) (h : isEntryName bdf) :
    unbindPath bdf = "/sys/bus/pci/devices/" ++ bdf ++ "/driver/unbind" := by
  have ha : splitSlash pciDeviceFile.data =
      [] :: ["sys".data, "bus".data, "pci".data, "devices".data] := by decide
  have ht : splitSlash "driver/unbind".data = ["driver".data, "unbind".data] := by decide
  have := Join_entry pciDeviceFile bdf "driver/unbind" _ _ ha (by decide) ht (by decide) h
    (by decide)
  rw [unbindPath, this]
  apply String.ext
  simp [String.data_append, pciDeviceFile]

theorem newidPath_eq : newidPath = "/sys/bus/pci/drivers/vfio-pci/new_id" := by decide

theorem Clean_two_last (x d u : List Char) (hx : x.head? = some '/')
    (hd : plainElem d) (hu : plainElem u) (hds : '/' ∉ d) (hus : '/' ∉ u) :
    ∃ pre, (Clean (String.mk (x ++ '/' :: (d ++ '/' :: u)))).data = pre ++ (d ++ ['/'] ++ u) := by
  have hsplit : splitSlash (x ++ '/' :: (d ++ '/' :: u)) = splitSlash x ++ [d, u] := by
    rw [splitSlash_append, splitSlash_append, splitSlash_plain d hds, splitSlash_plain u hus]
    rfl
  have hstep : ∀ out, [d, u].foldl (cleanStep true) out = u :: d :: out := by
    intro out
    rw [foldl_cleanStep_plain true [d, u] out
      (by intro e he; simp at he; rcases he with h | h <;> simp [h, hd, hu])]
    rfl
  obtain ⟨pre, hpre⟩ := joinChars_two_last ['/']
    ((splitSlash x).foldl (cleanStep true) []).reverse d u
  refine ⟨'/' :: pre, ?_⟩
  obtain ⟨c, cs, rfl⟩ : ∃ c cs, x = c :: cs := by
    cases x with
    | nil => simp at hx
    | cons c cs => exact ⟨c, cs, rfl⟩
  have hc : c = '/' := by simpa using hx
  subst hc
  have hhead : ('/' :: cs ++ '/' :: (d ++ '/' :: u)).head? = some '/' := rfl
  have hnil : ('/' :: cs ++ '/' :: (d ++ '/' :: u)) ≠ [] := by simp
  simp only [Clean, hnil, if_false, hhead, decide_True, if_true]
  rw [hsplit, List.foldl_append, hstep, List.reverse_cons, List.reverse_cons,
    List.append_assoc]
  simp only [List.singleton_append, List.nil_append, hpre, List.cons_append]

theorem unbindPath_data (bdf : String) :
    ∃ pre, (unbindPath bdf).data = pre ++ "driver/unbind".data := by
  have h := Clean_two_last (pciDeviceFile.data ++ '/' :: bdf.data) "driver".data "unbind".data
    rfl (by decide) (by decide) (by decide) (by decide)
  have hne : pciDeviceFile ≠ "" := by decide
  have hj : unbindPath bdf = Clean (String.mk ((pciDeviceFile.data ++ '/' :: bdf.data) ++
      '/' :: ("driver".data ++ '/' :: "unbind".data))) := by
    simp only [unbindPath, Join, joinFrom, hne, if_false, List.map, joinChars]
    congr 2
    simp
  rw [hj]
  exact h

theorem unbindPath_ne_newidPath (bdf : String) : unbindPath bdf ≠ newidPath := by
  intro h
  obtain ⟨pre, hpre⟩ := unbindPath_data bdf
  have hs : "driver/unbind".data <:+ newidPath.data := ⟨pre, by rw [← hpre, h]⟩
  exact absurd hs (by decide)


/-! ## Lemmas on the device map -/

namespace DeviceMap

theorem find_erase (m : DeviceMap) (k k1 : String) :
    DeviceMap.find (DeviceMap.erase m k) k1 = if k = k1 then none else DeviceMap.find m k1 := by
  induction m with
  | nil => simp [find, erase]
  | cons e rest ih =>
    obtain ⟨a, b⟩ := e
    by_cases hak : a = k
    · subst hak
      by_cases hkk : a = k1
      · subst hkk
        simpa [erase] using ih
      · simpa [erase, hkk, find] using ih
    · by_cases hkk : k = k1
      · subst hkk
        simpa [erase, hak, find] using ih
      · by_cases hak1 : a = k1
        · subst hak1
          simp [erase, hak, hkk, find]
        · simpa [erase, hak, hkk, hak1, find] using ih

theorem find_insert (m : DeviceMap) (k v k1 : String) :
    DeviceMap.find (DeviceMap.insert m k v) k1 =
      if k = k1 then some v else DeviceMap.find m k1 := by
  by_cases h : k = k1
  · simp [insert, find, h]
  · simp [insert, find, h, find_erase]

theorem keys_erase_subset (m : DeviceMap) (k x : String) :
    x ∈ keys (DeviceMap.erase m k) → x ∈ keys m ∧ x ≠ k := by
  induction m with
  | nil => simp [erase, keys]
  | cons e rest ih =>
    obtain ⟨a, b⟩ := e
    intro hx
    by_cases hak : a = k
    · simp only [erase, hak, if_true] at hx
      exact ⟨List.mem_cons_of_mem _ (ih hx).1, (ih hx).2⟩
    · simp only [erase, hak, if_false, keys, List.map_cons, List.mem_cons] at hx
      rcases hx with h | h
      · subst h
        exact ⟨List.mem_cons_self _ _, hak⟩
      · exact ⟨List.mem_cons_of_mem _ (ih h).1, (ih h).2⟩

theorem keys_erase_nodup (m : DeviceMap) (k : String) (h : (keys m).Nodup) :
    (keys (DeviceMap.erase m k)).Nodup := by
  induction m with
  | nil => simp [erase, keys]
  | cons e rest ih =>
    obtain ⟨a, b⟩ := e
    simp only [keys, List.map_cons, List.nodup_cons] at h
    by_cases hak : a = k
    · simp only [erase, hak, if_true]
      exact ih h.2
    · simp only [erase, hak, if_false, keys, List.map_cons, List.nodup_cons]
      exact ⟨fun hm => h.1 (keys_erase_subset rest k a hm).1, ih h.2⟩

theorem keys_insert_nodup (m : DeviceMap) (k v : String) (h : (keys m).Nodup) :
    (keys (DeviceMap.insert m k v)).Nodup := by
  simp only [keys, insert, List.map_cons, List.nodup_cons]
  exact ⟨fun hm => (keys_erase_subset m k k hm).2 rfl, keys_erase_nodup m k h⟩

theorem find_isSome_iff (m : DeviceMap) (k : String) :
    (DeviceMap.find m k).isSome ↔ k ∈ keys m := by
  induction m with
  | nil => simp [find, keys]
  | cons e rest ih =>
    obtain ⟨a, b⟩ := e
    by_cases h : a = k
    · simp [find, keys, h]
    · have h2 : ¬ k = a := fun e => h e.symm
      simp [find, h, h2, keys] at ih ⊢
      exact ih

end DeviceMap


/-! ## The rebinder -/

/-- Claim C1: a device bound to a driver other than vfio-pci.  When the
`driver` path of `bdf` exists, its link reads as a name other than "vfio-pci",
and the two control-file writes succeed, `rebindOne bdf (vendor:device)`, with
no colon in `vendor`, returns no error and makes exactly two writes, in this
order: `bdf` to the device's `driver/unbind` file, then "vendor device" to
vfio-pci's `new_id`.  The `new_id` file is
`/sys/bus/pci/drivers/vfio-pci/new_id`, and for a bus address that is a
directory entry name the unbind file is
`/sys/bus/pci/devices/<bdf>/driver/unbind`. -/
theorem rebindOne_unbinds_then_binds {σ : Type} (H : Host σ) (bdf vendor device driver : String)
    (s s1 s2 : σ) (hv : ':' ∉ vendor.data)
    (hstat : H.stat s (driverPath bdf) = true)
    (hlink : H.readlink s (driverPath bdf) = .ok driver)
    (hdrv : driver ≠ "vfio-pci")
    (hw1 : H.writeFile s (unbindPath bdf) bdf = (.ok (), s1))
    (hw2 : H.writeFile s1 newidPath (vendor ++ " " ++ device) = (.ok (), s2)) :
    rebindOne H bdf (vendor ++ ":" ++ device) s =
        (none, s2, [⟨unbindPath bdf, bdf⟩, ⟨newidPath, vendor ++ " " ++ device⟩])
      ∧ newidPath = "/sys/bus/pci/drivers/vfio-pci/new_id"
      ∧ (isEntryName bdf →
          unbindPath bdf = "/sys/bus/pci/devices/" ++ bdf ++ "/driver/unbind") := by
  refine ⟨?_, newidPath_eq, unbindPath_entry bdf⟩
  simp only [driverPath] at hstat hlink
  simp only [unbindPath] at hw1
  simp only [newidPath] at hw2
  simp only [rebindOne, rebindOne.bindNew, hstat, hlink, hdrv, hw1, if_true, if_false,
    Replace_colon vendor device hv, hw2, unbindPath, newidPath, List.nil_append,
    List.singleton_append]

/-- The branch of `rebindOne` that leaves a device alone (lines 196-198): it
is taken when `os.Readlink` returns exactly the text "vfio-pci". -/
theorem rebindOne_literal_target_noop {σ : Type} (H : Host σ) (bdf vd : String) (s : σ)
    (hstat : H.stat s (driverPath bdf) = true)
    (hlink : H.readlink s (driverPath bdf) = .ok "vfio-pci") :
    rebindOne H bdf vd s = (none, s, []) := by
  simp only [driverPath] at hstat hlink
  simp only [rebindOne, hstat, hlink, if_true]

/-- Claim C10: a failed unbind stops the device.  When the device is bound to
a driver other than vfio-pci and the write of `bdf` to its `driver/unbind`
file fails, `rebindOne` returns the error "Could not unbind driver: ..." and
the unbind attempt is its only write: nothing is written to vfio-pci's
`new_id`. -/
theorem rebindOne_unbind_failure_stops {σ : Type} (H : Host σ)
    (bdf vd driver err : String) (s s1 : σ)
    (hstat : H.stat s (driverPath bdf) = true)
    (hlink : H.readlink s (driverPath bdf) = .ok driver)
    (hdrv : driver ≠ "vfio-pci")
    (hw1 : H.writeFile s (unbindPath bdf) bdf = (.error err, s1)) :
    rebindOne H bdf vd s =
        (some ("Could not unbind driver: " ++ err), s1, [⟨unbindPath bdf, bdf⟩])
      ∧ ∀ w ∈ (rebindOne H bdf vd s).2.2, w.path ≠ newidPath := by
  have h : rebindOne H bdf vd s =
      (some ("Could not unbind driver: " ++ err), s1, [⟨unbindPath bdf, bdf⟩]) := by
    simp only [driverPath] at hstat hlink
    simp only [unbindPath] at hw1
    simp only [rebindOne, hstat, hlink, hdrv, hw1, if_true, if_false, unbindPath]
  refine ⟨h, ?_⟩
  rw [h]
  intro w hw
  simp only [List.mem_singleton] at hw
  subst hw
  exact unbindPath_ne_newidPath bdf

/-- Claim C9, as amended: what `rebindOne` does when the driver link cannot be
inspected.  When `os.Stat` of the `driver` path fails, the device is treated
as having no driver: the only write is the pair to vfio-pci's `new_id`, no
unbind write is made, and the call succeeds exactly when that write does.
When the `driver` path exists and reading the link fails, `rebindOne` returns
the error "Could not read driver: ..." without any write and without a change
of state. -/
theorem rebindOne_link_inspection {σ : Type} (H : Host σ) (bdf vd : String) (s : σ) :
    (H.stat s (driverPath bdf) = false →
        (rebindOne H bdf vd s).2.2 = [⟨newidPath, Replace vd ':' " " 1⟩]
          ∧ (∀ w ∈ (rebindOne H bdf vd s).2.2, w.path ≠ unbindPath bdf)
          ∧ (rebindOne H bdf vd s).2.1 = (H.writeFile s newidPath (Replace vd ':' " " 1)).2
          ∧ ((rebindOne H bdf vd s).1 = none ↔
              (H.writeFile s newidPath (Replace vd ':' " " 1)).1 = .ok ()))
      ∧ (∀ err, H.stat s (driverPath bdf) = true →
          H.readlink s (driverPath bdf) = .error err →
          rebindOne H bdf vd s = (some ("Could not read driver: " ++ err), s, [])) := by
  constructor
  · intro hstat
    simp only [driverPath] at hstat
    have h : rebindOne H bdf vd s = rebindOne.bindNew H vd s [] := by
      simp [rebindOne, hstat]
    rw [h]
    simp only [rebindOne.bindNew, newidPath]
    cases hw : H.writeFile s (Join [vfioDeviceFile, "new_id"]) (Replace vd ':' " " 1) with
    | mk r s1 =>
      cases r with
      | error e =>
        refine ⟨by simp, ?_, by simp, by simp⟩
        intro w hw2
        simp at hw2
        subst hw2
        exact fun e => unbindPath_ne_newidPath bdf e.symm
      | ok u =>
        refine ⟨by simp, ?_, by simp, by simp⟩
        intro w hw2
        simp at hw2
        subst hw2
        exact fun e => unbindPath_ne_newidPath bdf e.symm
  · intro err hstat hlink
    simp only [driverPath] at hstat hlink
    simp only [rebindOne, hstat, hlink, if_true]


/-! ## The enumerator -/

theorem createDeviceMap_eq {σ : Type} (H : Host σ) (s : σ) (l : List String)
    (hdir : H.readDir s pciDeviceFile = .ok l) :
    createDeviceMap H s = l.foldl (fun m bdf =>
      match entryKey H s bdf with
      | some k => DeviceMap.insert m k bdf
      | none => m) [] := by
  simp only [createDeviceMap, hdir]
  congr 1
  funext m bdf
  simp only [entryKey, vendorPath, devicePath]
  cases H.readFile s (Join [pciDeviceFile, bdf, "vendor"]) with
  | error e => rfl
  | ok vendor =>
    cases H.readFile s (Join [pciDeviceFile, bdf, "device"]) with
    | error e => rfl
    | ok device => rfl

theorem fold_find {σ : Type} (H : Host σ) (s : σ) (l : List String) (m0 : DeviceMap)
    (k v : String) :
    DeviceMap.find (l.foldl (fun m bdf =>
      match entryKey H s bdf with
      | some k => DeviceMap.insert m k bdf
      | none => m) m0) k = some v ↔
      (∃ pre post, l = pre ++ v :: post ∧ entryKey H s v = some k ∧
          ∀ e ∈ post, entryKey H s e ≠ some k)
        ∨ (m0.find k = some v ∧ ∀ e ∈ l, entryKey H s e ≠ some k) := by
  induction l generalizing m0 with
  | nil => simp
  | cons a rest ih =>
    rw [List.foldl_cons, ih]
    by_cases ha : entryKey H s a = some k
    · simp only [ha, DeviceMap.find_insert, if_true]
      constructor
      · rintro (⟨pre, post, h1, h2, h3⟩ | ⟨h1, h2⟩)
        · exact Or.inl ⟨a :: pre, post, by simp [h1], h2, h3⟩
        · cases h1
          exact Or.inl ⟨[], rest, rfl, ha, h2⟩
      · rintro (⟨pre, post, h1, h2, h3⟩ | ⟨_, h2⟩)
        · cases pre with
          | nil =>
            simp only [List.nil_append, List.cons.injEq] at h1
            obtain ⟨rfl, rfl⟩ := h1
            exact Or.inr ⟨rfl, h3⟩
          | cons p pre =>
            simp only [List.cons_append, List.cons.injEq] at h1
            exact Or.inl ⟨pre, post, h1.2, h2, h3⟩
        · exact absurd ha (h2 a (by simp))
    · have hfind : DeviceMap.find (match entryKey H s a with
          | some k => DeviceMap.insert m0 k a
          | none => m0) k = m0.find k := by
        cases hk : entryKey H s a with
        | none => rfl
        | some k1 =>
          have : k1 ≠ k := fun e => ha (by rw [hk, e])
          simp [DeviceMap.find_insert, this]
      rw [hfind]
      constructor
      · rintro (⟨pre, post, h1, h2, h3⟩ | ⟨h1, h2⟩)
        · exact Or.inl ⟨a :: pre, post, by simp [h1], h2, h3⟩
        · refine Or.inr ⟨h1, ?_⟩
          intro e he
          simp only [List.mem_cons] at he
          rcases he with rfl | he
          · exact ha
          · exact h2 e he
      · rintro (⟨pre, post, h1, h2, h3⟩ | ⟨h1, h2⟩)
        · cases pre with
          | nil =>
            simp only [List.nil_append, List.cons.injEq] at h1
            obtain ⟨rfl, rfl⟩ := h1
            exact absurd h2 ha
          | cons p pre =>
            simp only [List.cons_append, List.cons.injEq] at h1
            exact Or.inl ⟨pre, post, h1.2, h2, h3⟩
        · exact Or.inr ⟨h1, fun e he => h2 e (by simp [he])⟩

theorem fold_keys_nodup {σ : Type} (H : Host σ) (s : σ) (l : List String) (m0 : DeviceMap)
    (h0 : (DeviceMap.keys m0).Nodup) :
    (DeviceMap.keys (l.foldl (fun m bdf =>
      match entryKey H s bdf with
      | some k => DeviceMap.insert m k bdf
      | none => m) m0)).Nodup := by
  induction l generalizing m0 with
  | nil => exact h0
  | cons a rest ih =>
    rw [List.foldl_cons]
    apply ih
    cases entryKey H s a with
    | none => exact h0
    | some k => exact DeviceMap.keys_insert_nodup m0 k a h0

/-- An entry of the map that `createDeviceMap` builds is an entry of the
listing, stored under the key that this entry yields. -/
theorem createDeviceMap_find_entry {σ : Type} (H : Host σ) (s : σ) (l : List String)
    (hdir : H.readDir s pciDeviceFile = .ok l) (k v : String)
    (h : (createDeviceMap H s).find k = some v) : v ∈ l ∧ entryKey H s v = some k := by
  rw [createDeviceMap_eq H s l hdir, fold_find] at h
  rcases h with ⟨pre, post, h1, h2, _⟩ | ⟨h1, _⟩
  · exact ⟨by rw [h1]; simp, h2⟩
  · simp [DeviceMap.find] at h1

/-- Claim C7: the last device of a pair wins.  For a registry listing `l`, the
map of `createDeviceMap` holds `v` under `k` exactly when `v` is the last
entry of `l`, in listing order, whose `vendor` and `device` files are both
read and yield `k`; the keys of the map are distinct, so every key has one
bus address. -/
theorem createDeviceMap_last_wins {σ : Type} (H : Host σ) (s : σ) (l : List String)
    (hdir : H.readDir s pciDeviceFile = .ok l) :
    (∀ k v, (createDeviceMap H s).find k = some v ↔
        ∃ pre post, l = pre ++ v :: post ∧ entryKey H s v = some k ∧
          ∀ e ∈ post, entryKey H s e ≠ some k)
      ∧ (createDeviceMap H s).keys.Nodup := by
  rw [createDeviceMap_eq H s l hdir]
  refine ⟨?_, fold_keys_nodup H s l [] (by simp [DeviceMap.keys])⟩
  intro k v
  rw [fold_find]
  simp [DeviceMap.find]


/-! ## Lemmas on the orchestrator -/

theorem debugLoop_id {σ : Type} (m : DeviceMap) (s : σ) :
    m.foldl (fun acc _ => acc) s = s := by
  induction m with
  | nil => rfl
  | cons e rest ih => simp [List.foldl, ih]

theorem doRebind_eq {σ : Type} (H : Host σ) (m : DeviceMap) (s : σ) :
    doRebind H m s = (none, (doRebind.loop H m pciSupportedVendorDeviceList s).1,
      (doRebind.loop H m pciSupportedVendorDeviceList s).2) := by
  simp only [doRebind, debugLoop_id]

theorem loop_cons_some {σ : Type} (H : Host σ) (m : DeviceMap) (vd bdf : String)
    (rest : List String) (s : σ) (h : m.find vd = some bdf) :
    doRebind.loop H m (vd :: rest) s =
      ((doRebind.loop H m rest (rebindOne H bdf vd s).2.1).1,
        Event.invoke bdf vd :: ((rebindOne H bdf vd s).2.2.map Event.write ++
          (doRebind.loop H m rest (rebindOne H bdf vd s).2.1).2)) := by
  simp [doRebind.loop, h]

theorem loop_cons_none {σ : Type} (H : Host σ) (m : DeviceMap) (vd : String)
    (rest : List String) (s : σ) (h : m.find vd = none) :
    doRebind.loop H m (vd :: rest) s = doRebind.loop H m rest s := by
  simp [doRebind.loop, h]

theorem loop_append {σ : Type} (H : Host σ) (m : DeviceMap) (xs ys : List String) (s : σ) :
    doRebind.loop H m (xs ++ ys) s =
      ((doRebind.loop H m ys (doRebind.loop H m xs s).1).1,
        (doRebind.loop H m xs s).2 ++ (doRebind.loop H m ys (doRebind.loop H m xs s).1).2) := by
  induction xs generalizing s with
  | nil => simp [doRebind.loop]
  | cons vd rest ih =>
    cases h : m.find vd with
    | none => simp only [List.cons_append, loop_cons_none _ _ _ _ _ h, ih]
    | some bdf => simp only [List.cons_append, loop_cons_some _ _ _ _ _ _ h, ih,
        List.append_assoc]

theorem loop_absent {σ : Type} (H : Host σ) (m : DeviceMap) (vds : List String) (s : σ)
    (h : ∀ vd ∈ vds, m.find vd = none) : doRebind.loop H m vds s = (s, []) := by
  induction vds with
  | nil => rfl
  | cons vd rest ih =>
    rw [loop_cons_none _ _ _ _ _ (h vd (by simp))]
    exact ih (fun x hx => h x (by simp [hx]))

theorem invoke_mem_map_write (b vd : String) (ws : List Write) :
    Event.invoke b vd ∉ ws.map Event.write := by
  simp

theorem invoke_mem_loop {σ : Type} (H : Host σ) (m : DeviceMap) (vds : List String) (s : σ)
    (b vd : String) :
    Event.invoke b vd ∈ (doRebind.loop H m vds s).2 ↔ vd ∈ vds ∧ m.find vd = some b := by
  induction vds generalizing s with
  | nil => simp [doRebind.loop]
  | cons x rest ih =>
    cases h : m.find x with
    | none =>
      rw [loop_cons_none _ _ _ _ _ h, ih]
      constructor
      · rintro ⟨h1, h2⟩
        exact ⟨by simp [h1], h2⟩
      · rintro ⟨h1, h2⟩
        simp only [List.mem_cons] at h1
        rcases h1 with h1 | h1
        · rw [h1, h] at h2
          cases h2
        · exact ⟨h1, h2⟩
    | some bdf =>
      rw [loop_cons_some _ _ _ _ _ _ h]
      simp only [List.mem_cons, List.mem_append, Event.invoke.injEq, ih]
      constructor
      · rintro (⟨rfl, rfl⟩ | h1 | ⟨h1, h2⟩)
        · exact ⟨Or.inl rfl, h⟩
        · exact absurd h1 (invoke_mem_map_write _ _ _)
        · exact ⟨Or.inr h1, h2⟩
      · rintro ⟨h1 | h1, h2⟩
        · subst h1
          rw [h] at h2
          cases h2
          exact Or.inl ⟨rfl, rfl⟩
        · exact Or.inr (Or.inr ⟨h1, h2⟩)

theorem invocations_append (xs ys : List Event) :
    invocations (xs ++ ys) = invocations xs ++ invocations ys := by
  induction xs with
  | nil => rfl
  | cons e rest ih => cases e <;> simp [invocations, ih]

theorem invocations_map_write (ws : List Write) : invocations (ws.map Event.write) = [] := by
  induction ws with
  | nil => rfl
  | cons w rest ih => simp [invocations, ih]

theorem writes_append (xs ys : List Event) : writes (xs ++ ys) = writes xs ++ writes ys := by
  induction xs with
  | nil => rfl
  | cons e rest ih => cases e <;> simp [writes, ih]

theorem writes_map_write (ws : List Write) : writes (ws.map Event.write) = ws := by
  induction ws with
  | nil => rfl
  | cons w rest ih => simp [writes, ih]

theorem invocations_loop {σ : Type} (H : Host σ) (m : DeviceMap) (vds : List String) (s : σ) :
    invocations (doRebind.loop H m vds s).2 =
      vds.filterMap (fun vd => (m.find vd).map (fun bdf => (bdf, vd))) := by
  induction vds generalizing s with
  | nil => rfl
  | cons x rest ih =>
    cases h : m.find x with
    | none => rw [loop_cons_none _ _ _ _ _ h, ih]; simp [List.filterMap_cons, h]
    | some bdf =>
      rw [loop_cons_some _ _ _ _ _ _ h]
      simp [invocations, invocations_append, invocations_map_write, ih, List.filterMap_cons, h]

theorem rebindOne_writes {σ : Type} (H : Host σ) (bdf vd : String) (s : σ) :
    ∀ w ∈ (rebindOne H bdf vd s).2.2,
      w = ⟨unbindPath bdf, bdf⟩ ∨ w = ⟨newidPath, Replace vd ':' " " 1⟩ := by
  intro w hw
  simp only [rebindOne, rebindOne.bindNew] at hw
  simp only [unbindPath, newidPath]
  split at hw
  · split at hw
    · simp at hw
    · split at hw
      · simp at hw
      · split at hw
        · simp at hw; exact Or.inl hw
        · split at hw <;> simp at hw <;> rcases hw with h | h <;> simp [h]
  · split at hw <;> simp at hw <;> simp [hw]

theorem writes_loop {σ : Type} (H : Host σ) (m : DeviceMap) (vds : List String) (s : σ) :
    ∀ w ∈ writes (doRebind.loop H m vds s).2, ∃ vd b, vd ∈ vds ∧ m.find vd = some b ∧
      (w = ⟨unbindPath b, b⟩ ∨ w = ⟨newidPath, Replace vd ':' " " 1⟩) := by
  induction vds generalizing s with
  | nil => simp [doRebind.loop, writes]
  | cons x rest ih =>
    intro w hw
    cases h : m.find x with
    | none =>
      rw [loop_cons_none _ _ _ _ _ h] at hw
      obtain ⟨vd, b, h1, h2, h3⟩ := ih _ w hw
      exact ⟨vd, b, by simp [h1], h2, h3⟩
    | some bdf =>
      rw [loop_cons_some _ _ _ _ _ _ h] at hw
      simp only [writes, writes_append, writes_map_write, List.mem_append] at hw
      rcases hw with hw | hw
      · exact ⟨x, bdf, by simp, h, rebindOne_writes H bdf x s w hw⟩
      · obtain ⟨vd, b, h1, h2, h3⟩ := ih _ w hw
        exact ⟨vd, b, by simp [h1], h2, h3⟩


/-! ## The orchestrator -/

/-- Claim C3: a failure does not stop the pass.  Let `A` come before `B` in
the allowlist, both keys of the map, and let `rebindOne` fail for `A` in the
state the loop has reached.  Then `doRebind` still returns no error and calls
`rebindOne` for `B`, with its mapped bus address, after the call for `A`. -/
theorem doRebind_continues_after_failure {σ : Type} (H : Host σ) (m : DeviceMap) (s : σ)
    (before after : List String) (A B a b : String)
    (hlist : pciSupportedVendorDeviceList = before ++ A :: after) (hB : B ∈ after)
    (hA : m.find A = some a) (hBm : m.find B = some b)
    (hfail : (rebindOne H a A (doRebind.loop H m before s).1).1 ≠ none) :
    (doRebind H m s).1 = none ∧
      ∃ err t1 t2, (rebindOne H a A (doRebind.loop H m before s).1).1 = some err ∧
        (doRebind H m s).2.2 = t1 ++ Event.invoke a A :: t2 ∧ Event.invoke b B ∈ t2 := by
  obtain ⟨err, herr⟩ :
      ∃ err, (rebindOne H a A (doRebind.loop H m before s).1).1 = some err := by
    cases h : (rebindOne H a A (doRebind.loop H m before s).1).1 with
    | none => exact absurd h hfail
    | some err => exact ⟨err, rfl⟩
  rw [doRebind_eq, hlist, loop_append, loop_cons_some _ _ _ _ _ _ hA]
  refine ⟨rfl, err, (doRebind.loop H m before s).2, _, herr, rfl, ?_⟩
  exact List.mem_append_right _ ((invoke_mem_loop H m after _ b B).2 ⟨hB, hBm⟩)

theorem unbindPath_injective (a b : String) (ha : isEntryName a) (hb : isEntryName b)
    (h : unbindPath a = unbindPath b) : a = b := by
  rw [unbindPath_entry a ha, unbindPath_entry b hb] at h
  have h2 := congrArg String.data h
  simp only [String.data_append] at h2
  exact String.ext (List.append_cancel_left (List.append_cancel_right h2))

theorem Replace_blank (v d : String) (h : ' ' ∉ v.data) :
    Replace (v ++ " " ++ d) ' ' ":" 1 = v ++ ":" ++ d := by
  apply String.ext
  simp only [Replace, String.data_append]
  simpa using replaceChars_first ' ' [':'] v.data d.data h

/-- The payload written to `new_id` determines the allowlisted pair. -/
theorem allowlist_newid_injective (vd v d : String) (hvd : vd ∈ pciSupportedVendorDeviceList)
    (h : Replace vd ':' " " 1 = v ++ " " ++ d) : vd = v ++ ":" ++ d := by
  have hinv : ∀ x ∈ pciSupportedVendorDeviceList,
      Replace (Replace x ':' " " 1) ' ' ":" 1 = x := by decide
  have hcnt : ∀ x ∈ pciSupportedVendorDeviceList,
      (Replace x ':' " " 1).data.count ' ' = 1 := by decide
  have h1 := hcnt vd hvd
  have h2 := hinv vd hvd
  rw [h] at h1 h2
  have hb : (" " : String).data = [' '] := rfl
  simp only [String.data_append, hb, List.count_append, List.count_singleton_self] at h1
  have hv : ' ' ∉ v.data := List.count_eq_zero.1 (by omega)
  rw [Replace_blank v d hv] at h2
  exact h2.symm

/-- Claim C4, as amended: pairs outside the allowlist are left alone.  For a
key that is not in `pciSupportedVendorDeviceList`, `doRebind` never calls
`rebindOne` with that key, and every write of `doRebind` is the unbind write
or the `new_id` write of an allowlisted key of the map, which differs from
that key.  For an entry `(key, bdf)` of the map, no `new_id` write carries the
pair of `key`; and nothing is written to the unbind file of `bdf` when bus
addresses are directory entry names and no allowlisted key of the map has the
address `bdf`, which is so in every map that `createDeviceMap` builds from a
listing of entry names.  When no key of the map is in the allowlist,
`doRebind` makes no call and no write and leaves the state as it was. -/
theorem doRebind_skips_unlisted {σ : Type} (H : Host σ) (m : DeviceMap) (s : σ)
    (key : String) (hkey : key ∉ pciSupportedVendorDeviceList) :
    (∀ b, Event.invoke b key ∉ (doRebind H m s).2.2)
      ∧ (∀ w ∈ writes (doRebind H m s).2.2, ∃ vd b,
          vd ∈ pciSupportedVendorDeviceList ∧ vd ≠ key ∧ m.find vd = some b ∧
          (w = ⟨unbindPath b, b⟩ ∨ w = ⟨newidPath, Replace vd ':' " " 1⟩))
      ∧ (∀ bdf, m.find key = some bdf → isEntryName bdf →
          (∀ vd b, vd ∈ pciSupportedVendorDeviceList → m.find vd = some b →
            isEntryName b ∧ b ≠ bdf) →
          ∀ w ∈ writes (doRebind H m s).2.2, w.path ≠ unbindPath bdf)
      ∧ (∀ (s0 : σ) (l : List String), H.readDir s0 pciDeviceFile = .ok l →
          (∀ n ∈ l, isEntryName n) → m = createDeviceMap H s0 →
          ∀ bdf, m.find key = some bdf →
          ∀ w ∈ writes (doRebind H m s).2.2, w.path ≠ unbindPath bdf)
      ∧ (∀ v d, key = v ++ ":" ++ d →
          ∀ w ∈ writes (doRebind H m s).2.2, w ≠ ⟨newidPath, v ++ " " ++ d⟩)
      ∧ ((∀ k ∈ m.keys, k ∉ pciSupportedVendorDeviceList) →
          doRebind H m s = (none, s, [])) := by
  rw [doRebind_eq]
  have hchar : ∀ w ∈ writes (doRebind.loop H m pciSupportedVendorDeviceList s).2, ∃ vd b,
      vd ∈ pciSupportedVendorDeviceList ∧ vd ≠ key ∧ m.find vd = some b ∧
      (w = ⟨unbindPath b, b⟩ ∨ w = ⟨newidPath, Replace vd ':' " " 1⟩) := by
    intro w hw
    obtain ⟨vd, b, h1, h2, h3⟩ := writes_loop H m _ s w hw
    exact ⟨vd, b, h1, fun e => hkey (e ▸ h1), h2, h3⟩
  have hunbind : ∀ bdf, isEntryName bdf →
      (∀ vd b, vd ∈ pciSupportedVendorDeviceList → m.find vd = some b →
        isEntryName b ∧ b ≠ bdf) →
      ∀ w ∈ writes (doRebind.loop H m pciSupportedVendorDeviceList s).2,
        w.path ≠ unbindPath bdf := by
    intro bdf hbdf hothers w hw hpath
    obtain ⟨vd, b, h1, _, h3, h4⟩ := hchar w hw
    obtain ⟨hb, hne⟩ := hothers vd b h1 h3
    rcases h4 with h4 | h4
    · rw [h4] at hpath
      exact hne (unbindPath_injective b bdf hb hbdf hpath)
    · rw [h4] at hpath
      exact unbindPath_ne_newidPath bdf hpath.symm
  refine ⟨?_, hchar, ?_, ?_, ?_, ?_⟩
  · intro b hb
    exact hkey ((invoke_mem_loop H m _ s b key).1 hb).1
  · intro bdf _ hbdf hothers
    exact hunbind bdf hbdf hothers
  · intro s0 l hdir hnames hm bdf hentry
    subst hm
    obtain ⟨hmem, hyield⟩ := createDeviceMap_find_entry H s0 l hdir key bdf hentry
    apply hunbind bdf (hnames bdf hmem)
    intro vd b hvd hfind
    obtain ⟨hbmem, hbyield⟩ := createDeviceMap_find_entry H s0 l hdir vd b hfind
    refine ⟨hnames b hbmem, ?_⟩
    intro hbb
    rw [hbb, hyield] at hbyield
    exact hkey (Option.some.inj hbyield ▸ hvd)
  · intro v d hvd w hw hweq
    obtain ⟨vd, b, h1, _, _, h4⟩ := hchar w hw
    rcases h4 with h4 | h4
    · rw [h4] at hweq
      exact unbindPath_ne_newidPath b (congrArg Write.path hweq)
    · rw [h4] at hweq
      have := allowlist_newid_injective vd v d h1 (congrArg Write.data hweq)
      exact hkey (hvd ▸ this ▸ h1)
  · intro hnone
    rw [loop_absent H m _ s]
    intro vd hvd
    cases h : m.find vd with
    | none => rfl
    | some b =>
      have : vd ∈ m.keys := (DeviceMap.find_isSome_iff m vd).1 (by simp [h])
      exact absurd hvd (hnone vd this)

theorem expectedCalls_nodup (m : DeviceMap) : (expectedCalls m).Nodup := by
  have hmap : (expectedCalls m).map Prod.snd =
      pciSupportedVendorDeviceList.filter (fun vd => (m.find vd).isSome) := by
    unfold expectedCalls
    generalize pciSupportedVendorDeviceList = l
    induction l with
    | nil => rfl
    | cons x rest ih =>
      cases h : m.find x <;> simp [List.filterMap_cons, List.filter_cons, h, ih]
  have hl : pciSupportedVendorDeviceList.Nodup := by decide
  have := List.Nodup.sublist (List.filter_sublist (p := fun vd => (m.find vd).isSome) _) hl
  rw [← hmap] at this
  exact List.Nodup.of_map _ this

/-- Claim C5: the calls follow the allowlist.  The calls of `rebindOne` made
by `doRebind` are exactly the allowlisted pairs that are keys of the map, in
allowlist order, each with its mapped bus address and each once; a map with
the same key-value contents, in whatever iteration order, gives the same
run. -/
theorem doRebind_allowlist_order {σ : Type} (H : Host σ) (m : DeviceMap) (s : σ) :
    invocations (doRebind H m s).2.2 = expectedCalls m
      ∧ (invocations (doRebind H m s).2.2).Nodup
      ∧ (∀ m2 : DeviceMap, (∀ k, m2.find k = m.find k) →
          doRebind H m2 s = doRebind H m s) := by
  have h1 : invocations (doRebind H m s).2.2 = expectedCalls m := by
    rw [doRebind_eq]
    exact invocations_loop H m _ s
  refine ⟨h1, h1 ▸ expectedCalls_nodup m, ?_⟩
  intro m2 hm
  rw [doRebind_eq, doRebind_eq]
  have hloop : ∀ (vds : List String) (t : σ),
      doRebind.loop H m2 vds t = doRebind.loop H m vds t := by
    intro vds
    induction vds with
    | nil => intro t; rfl
    | cons x rest ih =>
      intro t
      cases h : m.find x with
      | none =>
        rw [loop_cons_none _ _ _ _ _ h, loop_cons_none _ _ _ _ _ ((hm x).trans h), ih]
      | some b =>
        rw [loop_cons_some _ _ _ _ _ _ h, loop_cons_some _ _ _ _ _ _ ((hm x).trans h), ih]
  rw [hloop]


/-! ## End to end -/

theorem rebindOne_rebound {σ : Type} (H : Host σ) (bdf vendor device driver : String)
    (s s1 s2 : σ) (hv : ':' ∉ vendor.data)
    (hstat : H.stat s (driverPath bdf) = true)
    (hlink : H.readlink s (driverPath bdf) = .ok driver)
    (hdrv : driver ≠ "vfio-pci")
    (hw1 : H.writeFile s (unbindPath bdf) bdf = (.ok (), s1))
    (hw2 : H.writeFile s1 newidPath (vendor ++ " " ++ device) = (.ok (), s2)) :
    rebindOne H bdf (vendor ++ ":" ++ device) s =
      (none, s2, [⟨unbindPath bdf, bdf⟩, ⟨newidPath, vendor ++ " " ++ device⟩]) := by
  simp only [driverPath] at hstat hlink
  simp only [unbindPath] at hw1
  simp only [newidPath] at hw2
  simp only [rebindOne, rebindOne.bindNew, hstat, hlink, hdrv, hw1, if_true, if_false,
    Replace_colon vendor device hv, hw2, unbindPath, newidPath, List.nil_append,
    List.singleton_append]

theorem allowlist_vendor_no_colon (vendor device : String)
    (h : vendor ++ ":" ++ device ∈ pciSupportedVendorDeviceList) : ':' ∉ vendor.data := by
  have hcount : ∀ x ∈ pciSupportedVendorDeviceList, x.data.count ':' = 1 := by decide
  have h1 := hcount _ h
  have hd : (":" : String).data = [':'] := rfl
  simp only [String.data_append, hd, List.count_append, List.count_singleton_self] at h1
  exact List.count_eq_zero.1 (by omega)

theorem allowlist_split (key : String) (h : key ∈ pciSupportedVendorDeviceList) :
    ∃ before after, pciSupportedVendorDeviceList = before ++ key :: after ∧
      key ∉ before ∧ key ∉ after := by
  have hnd : pciSupportedVendorDeviceList.Nodup := by decide
  obtain ⟨before, after, hsplit⟩ := List.append_of_mem h
  refine ⟨before, after, hsplit, ?_, ?_⟩
  · rw [hsplit] at hnd
    intro hb
    exact (List.nodup_append.1 hnd).2.2 hb (List.mem_cons_self _ _) 
  · rw [hsplit] at hnd
    exact (List.nodup_cons.1 (List.nodup_append.1 hnd).2.1).1

/-- Claim C8: end to end.  On a host whose registry lists the single device
`bdf`, with `vendor` file `v` and `device` file `d` (each followed by a
newline), `v:d` on the allowlist, the device bound to a driver other than
vfio-pci, and the two writes succeeding, `bindVFIO` returns no error, calls
`rebindOne` once, and its writes are exactly `bdf` to the device's
`driver/unbind` file followed by "v d" to vfio-pci's `new_id`. -/
theorem bindVFIO_single_device {σ : Type} (H : Host σ) (bdf v d driver : String)
    (s s1 s2 : σ)
    (hdir : H.readDir s pciDeviceFile = .ok [bdf])
    (hven : H.readFile s (vendorPath bdf) = .ok (v ++ "\n"))
    (hdev : H.readFile s (devicePath bdf) = .ok (d ++ "\n"))
    (hmem : v ++ ":" ++ d ∈ pciSupportedVendorDeviceList)
    (hstat : H.stat s (driverPath bdf) = true)
    (hlink : H.readlink s (driverPath bdf) = .ok driver)
    (hdrv : driver ≠ "vfio-pci")
    (hw1 : H.writeFile s (unbindPath bdf) bdf = (.ok (), s1))
    (hw2 : H.writeFile s1 newidPath (v ++ " " ++ d) = (.ok (), s2)) :
    bindVFIO H s = (none, s2,
        [Event.invoke bdf (v ++ ":" ++ d), Event.write ⟨unbindPath bdf, bdf⟩,
          Event.write ⟨newidPath, v ++ " " ++ d⟩])
      ∧ writes ( bindVFIO H s).2.2 = [⟨unbindPath bdf, bdf⟩, ⟨newidPath, v ++ " " ++ d⟩]
      ∧ newidPath = "/sys/bus/pci/drivers/vfio-pci/new_id"
      ∧ (isEntryName bdf →
          unbindPath bdf = "/sys/bus/pci/devices/" ++ bdf ++ "/driver/unbind") := by
  have hmap : createDeviceMap H s = [(v ++ ":" ++ d, bdf)] := by
    simp only [vendorPath] at hven
    simp only [devicePath] at hdev
    simp only [createDeviceMap, hdir, List.foldl, hven, hdev, TrimSuffix_newline]
    rfl
  obtain ⟨before, after, hsplit, hb, ha⟩ := allowlist_split _ hmem
  have hfind : ∀ x, x ≠ v ++ ":" ++ d → DeviceMap.find [(v ++ ":" ++ d, bdf)] x = none := by
    intro x hx
    simp [DeviceMap.find, Ne.symm hx]
  have hkey : DeviceMap.find [(v ++ ":" ++ d, bdf)] (v ++ ":" ++ d) = some bdf := by
    simp [DeviceMap.find]
  have hone := rebindOne_rebound H bdf v d driver s s1 s2
    (allowlist_vendor_no_colon v d hmem) hstat hlink hdrv hw1 hw2
  have hrun : bindVFIO H s = (none, s2,
      [Event.invoke bdf (v ++ ":" ++ d), Event.write ⟨unbindPath bdf, bdf⟩,
        Event.write ⟨newidPath, v ++ " " ++ d⟩]) := by
    simp only [ bindVFIO, hmap, doRebind_eq, hsplit, loop_append]
    rw [loop_absent H _ before s (fun x hx => hfind x (fun e => hb (e ▸ hx)))]
    simp only [loop_cons_some _ _ _ _ _ _ hkey, hone]
    rw [loop_absent H _ after s2 (fun x hx => hfind x (fun e => ha (e ▸ hx)))]
    simp
  refine ⟨hrun, ?_, newidPath_eq, unbindPath_entry bdf⟩
  rw [hrun]
  rfl

/-! ## The exit status of the hook -/

/-- What the hook swallows: `bindVFIO` returns no error on every host, and
once `flag.Parse` has returned the values of the flags, `main` ends with
exit status 0, also when `startVfioOciHook` returns an error because the
payload does not decode or `config.json` cannot be read. -/
theorem hook_swallows_errors {σ : Type} (H : Host σ) (s : σ) :
    ( bindVFIO H s).1 = none
      ∧ (∀ (decode : String → Except String State) (helpStatus : Nat) (args : List String)
          (start printVersion : Bool) (stdin : String),
          flag.Parse args = .parsed start printVersion →
            (main H decode helpStatus args stdin s).status = 0)
      ∧ (∀ (decode : String → Except String State) (stdin err : String),
          decode stdin = .error err →
            (startVfioOciHook H decode stdin s).1 = some err)
      ∧ (∀ (decode : String → Except String State) (stdin err : String) (st : State),
          decode stdin = .ok st →
          H.readFile s (filepath.Join ["/run/libcontainer", st.ID, "config.json"]) = .error err →
            (startVfioOciHook H decode stdin s).1 = some err) := by
  refine ⟨?_, ?_, ?_, ?_⟩
  · simp only [ bindVFIO]
    split <;> rfl
  · intro decode helpStatus args start printVersion stdin hparse
    simp only [main, hparse]
    split
    · rfl
    · split
      · split <;> rfl
      · rfl
  · intro decode stdin err h
    simp only [startVfioOciHook, h]
  · intro decode stdin err st h hr
    simp only [startVfioOciHook, h, hr]

/-- Claim C6 fails on the code: a non-version invocation with a flag that the
hook does not define, such as `-bogus`, ends in `flag.Parse` with exit status
2, on every host and for every payload on standard input, before the hook
does anything. -/
theorem main_undefined_flag_exits_2 {σ : Type} (H : Host σ)
    (decode : String → Except String State) (helpStatus : Nat) (stdin : String) (s : σ) :
    flag.Parse ["-bogus"] = .failed
      ∧ (main H decode helpStatus ["-bogus"] stdin s).status = 2
      ∧ (main H decode helpStatus ["-bogus"] stdin s).events = []
      ∧ (main H decode helpStatus ["-s=maybe"] stdin s).status = 2 := by
  have h1 : flag.Parse ["-bogus"] = .failed := by decide
  have h2 : flag.Parse ["-s=maybe"] = .failed := by decide
  simp only [main, h1, h2, and_self]

/-! ## Concrete runs -/

/-- Claim C1 on the sample host: a port bound to ixgbe is unbound and handed to vfio-pci. -/
theorem rebindOne_unbinds_then_binds_witness :
    rebindOne igbHost "0000:01:00.0" "0x8086:0x1521" [("0000:01:00.0", "ixgbe")] =
      (none, [("0000:01:00.0", "vfio-pci")],
        [⟨"/sys/bus/pci/devices/0000:01:00.0/driver/unbind", "0000:01:00.0"⟩,
          ⟨"/sys/bus/pci/drivers/vfio-pci/new_id", "0x8086 0x1521"⟩]) :=
  (rebindOne_unbinds_then_binds igbHost "0000:01:00.0" "0x8086" "0x1521" "ixgbe"
    [("0000:01:00.0", "ixgbe")] [] [("0000:01:00.0", "vfio-pci")]
    (by decide) rfl rfl (by decide) rfl rfl).1

/-- Claim C2 fails on the code: on a host as sysfs shows it, the `driver`
link of a port bound to vfio-pci reads `../../../bus/pci/drivers/vfio-pci`,
which is not the text "vfio-pci" that line 196 compares it with; `rebindOne`
then unbinds the port from vfio-pci and writes its pair to `new_id`, where the
claim has no write. -/
theorem rebindOne_vfio_bound_rewrites :
    rootBusHost.stat [("0000:00:19.0", "vfio-pci")] (driverPath "0000:00:19.0") = true
      ∧ rootBusHost.readlink [("0000:00:19.0", "vfio-pci")] (driverPath "0000:00:19.0") =
          .ok "../../../bus/pci/drivers/vfio-pci"
      ∧ rebindOne rootBusHost "0000:00:19.0" "0x8086:0x1521" [("0000:00:19.0", "vfio-pci")] =
          (none, [("0000:00:19.0", "vfio-pci")],
            [⟨"/sys/bus/pci/devices/0000:00:19.0/driver/unbind", "0000:00:19.0"⟩,
              ⟨"/sys/bus/pci/drivers/vfio-pci/new_id", "0x8086 0x1521"⟩]) :=
  ⟨rfl, rfl, rfl⟩

/-- Claim C10 on a host that rejects writes: the unbind attempt is the only write. -/
theorem rebindOne_unbind_failure_stops_witness :
    rebindOne readOnlyHost "0000:01:00.0" "0x8086:0x1521" [("0000:01:00.0", "ixgbe")] =
      (some "Could not unbind driver: permission denied", [("0000:01:00.0", "ixgbe")],
        [⟨"/sys/bus/pci/devices/0000:01:00.0/driver/unbind", "0000:01:00.0"⟩]) :=
  (rebindOne_unbind_failure_stops readOnlyHost "0000:01:00.0" "0x8086:0x1521" "ixgbe"
    "permission denied" [("0000:01:00.0", "ixgbe")] [("0000:01:00.0", "ixgbe")]
    rfl rfl (by decide) rfl).1

/-- Claim C9, as amended, on two hosts: an unbound port gets the `new_id`
write only; an unreadable link gives an error and no write. -/
theorem rebindOne_link_inspection_witness :
    (rebindOne readOnlyHost "0000:01:00.0" "0x8086:0x1521" []).2.2 =
        [⟨"/sys/bus/pci/drivers/vfio-pci/new_id", "0x8086 0x1521"⟩]
      ∧ rebindOne brokenLinkHost "0000:01:00.0" "0x8086:0x1521" () =
        (some "Could not read driver: input/output error", (), []) :=
  ⟨((rebindOne_link_inspection readOnlyHost "0000:01:00.0" "0x8086:0x1521" []).1 rfl).1,
    (rebindOne_link_inspection brokenLinkHost "0000:01:00.0" "0x8086:0x1521" ()).2
      "input/output error" rfl rfl⟩

/-- Claim C9 fails as stated: on a host where the `driver` path exists and
`os.Readlink` fails, `rebindOne` returns an error and does not write to
`new_id`. -/
theorem rebindOne_readlink_failure_returns :
    brokenLinkHost.stat () (driverPath "0000:01:00.0") = true
      ∧ brokenLinkHost.readlink () (driverPath "0000:01:00.0") = .error "input/output error"
      ∧ rebindOne brokenLinkHost "0000:01:00.0" "0x8086:0x1521" () =
          (some "Could not read driver: input/output error", (), [])
      ∧ (⟨newidPath, "0x8086 0x1521"⟩ : Write) ∉
          (rebindOne brokenLinkHost "0000:01:00.0" "0x8086:0x1521" ()).2.2 :=
  ⟨rfl, rfl, rfl, by decide⟩

/-- Claim C3 on a host that rejects writes: the first allowlisted port fails
and the Mellanox port is still attempted. -/
theorem doRebind_continues_after_failure_witness :
    (rebindOne readOnlyHost "0000:01:00.1" "0x8086:0x1521" []).1 =
        some "Could not bind vfio driver: permission denied"
      ∧ (doRebind readOnlyHost (createDeviceMap readOnlyHost []) []).1 = none
      ∧ ∃ err t1 t2,
        (rebindOne readOnlyHost "0000:01:00.1" "0x8086:0x1521"
          (doRebind.loop readOnlyHost (createDeviceMap readOnlyHost []) [] []).1).1 = some err
        ∧ (doRebind readOnlyHost (createDeviceMap readOnlyHost []) []).2.2 =
          t1 ++ Event.invoke "0000:01:00.1" "0x8086:0x1521" :: t2
        ∧ Event.invoke "0000:02:00.0" "0x15b3:0x1015" ∈ t2 :=
  ⟨rfl, doRebind_continues_after_failure readOnlyHost (createDeviceMap readOnlyHost []) []
    [] ["0x8086:0x1520", "0x8086:0x158b", "0x15b3:0x1015", "0x15b3:0x1017", "0x10ec:0x522a"]
    "0x8086:0x1521" "0x15b3:0x1015" "0000:01:00.1" "0000:02:00.0"
    rfl (by decide) rfl rfl (by decide)⟩

/-- Claim C4, as amended, on a host with one allowlisted port and one other
device: the map is the one `createDeviceMap` builds, the other device is never
passed to `rebindOne`, nothing is written to its unbind file, and the two
writes are those of the port. -/
theorem doRebind_skips_unlisted_witness :
    "0x1234:0x5678" ∉ pciSupportedVendorDeviceList
      ∧ createDeviceMap mixedHost [] =
          [("0x1234:0x5678", "0000:03:00.0"), ("0x8086:0x1521", "0000:01:00.0")]
      ∧ writes (doRebind mixedHost (createDeviceMap mixedHost [])
          [("0000:01:00.0", "ixgbe"), ("0000:03:00.0", "nvme")]).2.2 =
          [⟨"/sys/bus/pci/devices/0000:01:00.0/driver/unbind", "0000:01:00.0"⟩,
            ⟨"/sys/bus/pci/drivers/vfio-pci/new_id", "0x8086 0x1521"⟩]
      ∧ (∀ b, Event.invoke b "0x1234:0x5678" ∉
          (doRebind mixedHost (createDeviceMap mixedHost [])
            [("0000:01:00.0", "ixgbe"), ("0000:03:00.0", "nvme")]).2.2)
      ∧ (∀ w ∈ writes (doRebind mixedHost (createDeviceMap mixedHost [])
            [("0000:01:00.0", "ixgbe"), ("0000:03:00.0", "nvme")]).2.2,
          w.path ≠ "/sys/bus/pci/devices/0000:03:00.0/driver/unbind")
      ∧ (∀ w ∈ writes (doRebind mixedHost (createDeviceMap mixedHost [])
            [("0000:01:00.0", "ixgbe"), ("0000:03:00.0", "nvme")]).2.2,
          w ≠ ⟨"/sys/bus/pci/drivers/vfio-pci/new_id", "0x1234 0x5678"⟩) :=
  ⟨by decide, rfl, rfl,
    (doRebind_skips_unlisted mixedHost (createDeviceMap mixedHost [])
      [("0000:01:00.0", "ixgbe"), ("0000:03:00.0", "nvme")] "0x1234:0x5678" (by decide)).1,
    (doRebind_skips_unlisted mixedHost (createDeviceMap mixedHost [])
      [("0000:01:00.0", "ixgbe"), ("0000:03:00.0", "nvme")] "0x1234:0x5678"
      (by decide)).2.2.2.1 [] ["0000:01:00.0", "0000:03:00.0"] rfl (by decide) rfl
        "0000:03:00.0" rfl,
    (doRebind_skips_unlisted mixedHost (createDeviceMap mixedHost [])
      [("0000:01:00.0", "ixgbe"), ("0000:03:00.0", "nvme")] "0x1234:0x5678"
      (by decide)).2.2.2.2.1 "0x1234" "0x5678" rfl⟩

/-- Claim C4 fails as stated: in a map where the key "0x1234:0x5678", not on
the allowlist, and the allowlisted key "0x8086:0x1521" have the same bus
address, `doRebind` writes to the unbind file of the entry of the unlisted
key. -/
theorem doRebind_alias_writes_unbind :
    "0x1234:0x5678" ∉ pciSupportedVendorDeviceList
      ∧ aliasMap.find "0x1234:0x5678" = some "0000:01:00.0"
      ∧ writes (doRebind igbHost aliasMap [("0000:01:00.0", "ixgbe")]).2.2 =
          [⟨"/sys/bus/pci/devices/0000:01:00.0/driver/unbind", "0000:01:00.0"⟩,
            ⟨"/sys/bus/pci/drivers/vfio-pci/new_id", "0x8086 0x1521"⟩]
      ∧ (⟨unbindPath "0000:01:00.0", "0000:01:00.0"⟩ : Write) ∈
          writes (doRebind igbHost aliasMap [("0000:01:00.0", "ixgbe")]).2.2 :=
  ⟨by decide, rfl, rfl, by decide⟩

/-- Claim C7 on a host with two ports of one model: the second port is the one kept. -/
theorem createDeviceMap_last_wins_witness :
    (createDeviceMap readOnlyHost []).find "0x8086:0x1521" = some "0000:01:00.1"
      ∧ ∃ pre post, ["0000:01:00.0", "0000:01:00.1", "0000:02:00.0"] =
          pre ++ "0000:01:00.1" :: post
        ∧ entryKey readOnlyHost [] "0000:01:00.1" = some "0x8086:0x1521"
        ∧ ∀ e ∈ post, entryKey readOnlyHost [] e ≠ some "0x8086:0x1521" :=
  ⟨rfl, ((createDeviceMap_last_wins readOnlyHost []
    ["0000:01:00.0", "0000:01:00.1", "0000:02:00.0"] rfl).1
      "0x8086:0x1521" "0000:01:00.1").1 rfl⟩

/-- Claim C8 on the host of the end-to-end scenario. -/
theorem bindVFIO_single_device_witness :
    bindVFIO igbHost [("0000:01:00.0", "ixgbe")] =
      (none, [("0000:01:00.0", "vfio-pci")],
        [Event.invoke "0000:01:00.0" "0x8086:0x1521",
          Event.write ⟨"/sys/bus/pci/devices/0000:01:00.0/driver/unbind", "0000:01:00.0"⟩,
          Event.write ⟨"/sys/bus/pci/drivers/vfio-pci/new_id", "0x8086 0x1521"⟩]) :=
  ( bindVFIO_single_device igbHost "0000:01:00.0" "0x8086" "0x1521" "ixgbe"
    [("0000:01:00.0", "ixgbe")] [] [("0000:01:00.0", "vfio-pci")]
    rfl rfl rfl (by decide) rfl rfl (by decide) rfl rfl).1

end VfioHook
